import Mathlib

/-!
Shallow embedding of the record-manipulation functions of the
100-Days-python-practice-for-data-engineers repository, together with proofs
of the behavioural properties stated in its specification.

Modelling conventions:
* A Python scalar value is modelled by Value: None, an int, or a str.
  (Floats and booleans do not occur in any claim and are out of scope.)
* A record dict is modelled by an insertion-ordered association list; Python
  dicts have pairwise distinct keys, which the operations below preserve. The
  right-lookup dict of a join is only ever read, so it is modelled by its
  lookup function.
* record.get(k) returns Value.vNone both when the key is absent and when it is
  present with value None, exactly as Python .get does (default None).
* record[k] raises KeyError when the key is absent; a raising operation is
  modelled with Except PyErr.
* Python 3 comparisons a < b between an int and a str, or involving None,
  raise TypeError; sorted therefore raises TypeError as soon as it performs
  such a comparison.
-/

/-- Python exception kinds relevant to the embedded functions. -/
inductive PyErr where
  | keyError : PyErr
  | typeError : PyErr
  | valueError : PyErr
deriving DecidableEq, Repr

instance {ε α : Type} [DecidableEq ε] [DecidableEq α] :
    DecidableEq (Except ε α) := fun x y =>
  match x, y with
  | Except.ok a, Except.ok b =>
      if h : a = b then isTrue (by rw [h]) else isFalse (by simp [h])
  | Except.error a, Except.error b =>
      if h : a = b then isTrue (by rw [h]) else isFalse (by simp [h])
  | Except.ok _, Except.error _ => isFalse (by simp)
  | Except.error _, Except.ok _ => isFalse (by simp)

/-- Python scalar value: None, int, or str. -/
inductive Value where
  | vNone : Value
  | vInt : Int → Value
  | vStr : String → Value
deriving DecidableEq, Repr

open Value

/-- Record: a Python dict from field name to scalar value, as an
insertion-ordered association list. -/
abbrev Record : Type := List (String × Value)

/-- Table: ordered sequence of records. -/
abbrev Table : Type := List Record

/-- Optional lookup of a field in a record: some v when the key is present
(first occurrence), none when absent. -/
def recLookup (r : Record) (k : String) : Option Value :=
  match r with
  | [] => none
  | (k0, v0) :: rest => if k0 = k then some v0 else recLookup rest k

/-- Model of Python record.get(k): the value at k, or None when the key is
absent (Python .get with its default of None). -/
def pyGet (r : Record) (k : String) : Value :=
  (recLookup r k).getD vNone

/-- Model of Python record[k]: the value at k, raising KeyError when absent. -/
def recGetItem (r : Record) (k : String) : Except PyErr Value :=
  match recLookup r k with
  | some v => Except.ok v
  | none => Except.error PyErr.keyError

/-- Source function remove_null_records (Data_Cleaning_Validation):
keeps the records whose value at field is present and not None. -/
def remove_null_records (records : Table) (field : String) : Table :=
  records.filter (fun r => pyGet r field ≠ vNone)

/-- Loop of remove_duplicates, with the seen-keys set made explicit
(Python uses a hash set; a list with membership testing is an equivalent
model of the set of key values seen so far). -/
def removeDupGo (k : String) (seen : List Value) : Table → Table
  | [] => []
  | r :: rs =>
      if pyGet r k ∈ seen then removeDupGo k seen rs
      else r :: removeDupGo k (pyGet r k :: seen) rs

/-- Source function remove_duplicates (Data_Cleaning_Validation): keeps the
first record for each value of record.get(unique_key). -/
def remove_duplicates (records : Table) (uniqueKey : String) : Table :=
  removeDupGo uniqueKey [] records

/-- Replacement of the value stored at a key, keeping its position. -/
def assocReplace (k : String) (v : Value) : List (String × Value) → List (String × Value)
  | [] => []
  | (k0, v0) :: rest =>
      if k0 = k then (k, v) :: rest else (k0, v0) :: assocReplace k v rest

/-- Model of Python dict update for one key: if the key is present its value
is replaced in place, otherwise the pair is appended (dict insertion order). -/
def assocPut (r : List (String × Value)) (k : String) (v : Value) :
    List (String × Value) :=
  if (recLookup r k).isSome then assocReplace k v r
  else r ++ [(k, v)]

/-- Model of Python dict merge {**l, **r2} (equivalently l.copy( ) followed by
update(r2)): the pairs of r2 are written into l left to right. -/
def pyUpdate (l : Record) (r2 : Record) : Record :=
  r2.foldl (fun acc p => assocPut acc p.1 p.2) l

/-- Dictionary keyed by scalar values, used for the right-lookup of joins.
The joins only ever test membership and read entries, so the dict is modelled
by its lookup function. -/
abbrev VDict : Type := Value → Option Record

/-- Dict insert with replacement: a later record overwrites an earlier one
stored under an equal key value. -/
def dictInsert (d : VDict) (v : Value) (r : Record) : VDict :=
  fun w => if w = v then some r else d w

/-- Loop of the dict comprehension building the right lookup. -/
def buildLookupGo (acc : VDict) (k : String) : Table → Except PyErr VDict
  | [] => Except.ok acc
  | r :: rs =>
      match recGetItem r k with
      | Except.error e => Except.error e
      | Except.ok v => buildLookupGo (dictInsert acc v r) k rs

/-- Model of the dict comprehension \x7br[join_key]: r for r in right\x7d:
later records overwrite earlier ones at the same key value; a record without
the join key raises KeyError. -/
def buildLookup (right : Table) (joinKey : String) : Except PyErr VDict :=
  buildLookupGo (fun _ => none) joinKey right

/-- Source function inner_join (SQL-like_Logic_in_Python): builds the right
lookup, then for each left record looks up record.get(join_key) and, on a
match, emits the merged record. -/
def inner_join (left right : Table) (joinKey : String) : Except PyErr Table :=
  match buildLookup right joinKey with
  | Except.error e => Except.error e
  | Except.ok d =>
      Except.ok (left.filterMap
        (fun l => (d (pyGet l joinKey)).map (fun r => pyUpdate l r)))

/-- Loop of the Transformations version of inner_join: the left record is
subscripted (l[key]), so a left record without the key raises KeyError. -/
def innerJoinTaGo (d : VDict) (k : String) : Table → Except PyErr Table
  | [] => Except.ok []
  | l :: ls =>
      match recGetItem l k with
      | Except.error e => Except.error e
      | Except.ok v =>
          match innerJoinTaGo d k ls with
          | Except.error e => Except.error e
          | Except.ok rest =>
              match d v with
              | some r => Except.ok (pyUpdate l r :: rest)
              | none => Except.ok rest

/-- Source function inner_join (Transformations_&_Aggregations): identical to
the SQL-like version except that the left record is accessed with l[key]. -/
def inner_join_ta (left right : Table) (key : String) : Except PyErr Table :=
  match buildLookup right key with
  | Except.error e => Except.error e
  | Except.ok d => innerJoinTaGo d key left

/-- Source function left_join (SQL-like_Logic_in_Python): always emits one
record per left record; joined.update(right_lookup.get(key, \x7b\x7d)) merges
the matching right record, or nothing when there is no match. -/
def left_join (left right : Table) (joinKey : String) : Except PyErr Table :=
  match buildLookup right joinKey with
  | Except.error e => Except.error e
  | Except.ok d =>
      Except.ok (left.map
        (fun l => pyUpdate l ((d (pyGet l joinKey)).getD [])))

/-- Comparable kind of a value under Python 3 ordering: ints compare with
ints, strs with strs, and None compares with nothing (even None < None raises
TypeError). -/
inductive VKind where
  | int : VKind
  | str : VKind
deriving DecidableEq, Repr

/-- Kind of a value, none for None. -/
def comparableKind : Value → Option VKind
  | vNone => none
  | vInt _ => some VKind.int
  | vStr _ => some VKind.str

/-- Whether every value of the list has the one comparable kind of its head. -/
def sameComparableKind : List Value → Bool
  | [] => true
  | v :: vs =>
      match comparableKind v with
      | none => false
      | some k => vs.all (fun w => decide (comparableKind w = some k))

/-- Condition under which Python sorted of the key list terminates without a
TypeError: fewer than two keys (no comparison is performed), or all keys of
one comparable kind. With at least two keys, binary-insertion/merge steps of
the sort always compare the first key of a deviating kind against a key of the
other kind, so a None key or a mix of ints and strs raises TypeError. -/
def sortKeysComparable (records : Table) (field : String) : Bool :=
  records.length ≤ 1 || sameComparableKind (records.map (fun r => pyGet r field))

/-- Total extension of the Python ≤ on values (as not b < a). On two ints or
two strs it is exactly the Python comparison; across kinds it is extended
arbitrarily (None before ints before strs) — order_by only ever sorts under
the sortKeysComparable guard, where the extension is never exercised. -/
def vle (a b : Value) : Bool :=
  match a, b with
  | vNone, vNone => true
  | vInt x, vInt y => decide (x ≤ y)
  | vStr x, vStr y => decide (x ≤ y)
  | vNone, _ => true
  | _, vStr _ => true
  | _, _ => false

/-- Comparison on records used by order_by: by the value at the sort field,
flipped when descending (Python sorted with reverse=True is the stable
descending sort). -/
def recKeyLeB (field : String) (ascending : Bool) (a b : Record) : Bool :=
  if ascending then vle (pyGet a field) (pyGet b field)
  else vle (pyGet b field) (pyGet a field)

/-- Propositional form of recKeyLeB, as required by insertionSort. -/
abbrev recKeyLe (field : String) (ascending : Bool) (a b : Record) : Prop :=
  recKeyLeB field ascending a b = true

/-- Source function order_by (SQL-like_Logic_in_Python):
sorted(records, key=lambda x: x.get(field), reverse=not ascending).
Python sorted is specified as a stable sort, and a stable sort with respect
to a total preorder on the keys is extensionally unique, so any stable
sorting algorithm models it; insertionSort is used here. It raises TypeError
exactly when the keys are not comparable (see sortKeysComparable). -/
def order_by (records : Table) (field : String) (ascending : Bool) :
    Except PyErr Table :=
  if sortKeysComparable records field then
    Except.ok (records.insertionSort (recKeyLe field ascending))
  else Except.error PyErr.typeError

/-- Source function df_order_by (PySpark-style_Thinking_Python-based):
textually the same body as order_by. -/
def df_order_by (records : Table) (field : String) (ascending : Bool) :
    Except PyErr Table :=
  if sortKeysComparable records field then
    Except.ok (records.insertionSort (recKeyLe field ascending))
  else Except.error PyErr.typeError

/-- Numeric value of a decimal digit character. -/
def digitVal (c : Char) : Nat := c.toNat - 48

/-- Proleptic Gregorian leap-year rule used by datetime. -/
def isLeap (y : Nat) : Bool := y % 4 = 0 && (y % 100 != 0 || y % 400 = 0)

/-- Number of days of a month, as validated by the datetime constructor. -/
def daysInMonth (y m : Nat) : Nat :=
  if m = 2 then (if isLeap y then 29 else 28)
  else if m = 4 || m = 6 || m = 9 || m = 11 then 30
  else 31

/-- Day pattern of strptime, the regex 3[01]|[12][0-9]|0[1-9]|[1-9] with its
alternatives tried in order; nothing follows the day in the format, so the
first locally matching alternative wins. Returns the day and leftover input. -/
def dayMatch : List Char → Option (Nat × List Char)
  | c1 :: c2 :: rest =>
      if c1 = '3' && (c2 = '0' || c2 = '1') then some (30 + digitVal c2, rest)
      else if (c1 = '1' || c1 = '2') && c2.isDigit then
        some (10 * digitVal c1 + digitVal c2, rest)
      else if c1 = '0' && ('1' ≤ c2 && c2 ≤ '9') then some (digitVal c2, rest)
      else if '1' ≤ c1 && c1 ≤ '9' then some (digitVal c1, c2 :: rest)
      else none
  | [c1] => if '1' ≤ c1 && c1 ≤ '9' then some (digitVal c1, []) else none
  | [] => none

/-- Literal dash followed by the day pattern. -/
def afterMonth (m : Nat) : List Char → Option (Nat × Nat × List Char)
  | '-' :: rest => (dayMatch rest).map (fun p => (m, p.1, p.2))
  | _ => none

/-- Month pattern of strptime, the regex 1[0-2]|0[1-9]|[1-9]; the regex
engine backtracks over the alternatives against the rest of the format
(dash and day), so each alternative is tried with that continuation. -/
def monthDayMatch (cs : List Char) : Option (Nat × Nat × List Char) :=
  (match cs with
   | '1' :: c2 :: rest =>
       if c2 = '0' || c2 = '1' || c2 = '2' then afterMonth (10 + digitVal c2) rest
       else none
   | _ => none).orElse (fun _ =>
  (match cs with
   | '0' :: c2 :: rest =>
       if '1' ≤ c2 && c2 ≤ '9' then afterMonth (digitVal c2) rest else none
   | _ => none).orElse (fun _ =>
  (match cs with
   | c1 :: rest =>
       if '1' ≤ c1 && c1 ≤ '9' then afterMonth (digitVal c1) rest else none
   | [] => none)))

/-- Successful parse of the dashed year-month-day format: a four-digit year,
dash, month, dash, day per the patterns above, nothing left over, and a
calendar-valid date (year at least 1, day within the month). Digits are
modelled as the ASCII digits. -/
def parseIsoDate (s : String) : Option (Nat × Nat × Nat) :=
  match s.toList with
  | c1 :: c2 :: c3 :: c4 :: '-' :: rest =>
      if c1.isDigit && c2.isDigit && c3.isDigit && c4.isDigit then
        match monthDayMatch rest with
        | some (m, d, []) =>
            let y := 1000 * digitVal c1 + 100 * digitVal c2 +
              10 * digitVal c3 + digitVal c4
            if 1 ≤ y && d ≤ daysInMonth y m then some (y, m, d)
            else none
        | _ => none
      else none
  | _ => none

/-- Model of datetime.strptime(s, the dashed year-month-day format): any
failure — format mismatch, leftover input, or out-of-range date — raises
ValueError, as strptime and the datetime constructor do. -/
def pyStrptimeIso (s : String) : Except PyErr (Nat × Nat × Nat) :=
  match parseIsoDate s with
  | some d => Except.ok d
  | none => Except.error PyErr.valueError

/-- Source function validate_date_format (Data_Cleaning_Validation): calls
strptime inside try, returns True on success, and catches exactly ValueError
returning False; any other exception would propagate. -/
def validate_date_format (dateStr : String) : Except PyErr Bool :=
  match pyStrptimeIso dateStr with
  | Except.ok _ => Except.ok true
  | Except.error PyErr.valueError => Except.ok false
  | Except.error e => Except.error e

/-- Scanner for the part of the email regex after the mandatory dot-free
structure has consumed at least one character past the at sign: succeeds on
reaching a dot that is followed by one more non-at character. -/
def emailDot : List Char → Bool
  | [] => false
  | ['.'] => false
  | '.' :: d :: _ => if d = '@' then false else true
  | '@' :: _ => false
  | _ :: rest => emailDot rest

/-- Part of the email regex after the at sign: at least one non-at character,
then a dot, then at least one non-at character. -/
def emailTail : List Char → Bool
  | [] => false
  | '@' :: _ => false
  | _ :: rest => emailDot rest

/-- Local part continued: scan to the first at sign (the one-or-more non-at
class cannot cross it), then match the tail. -/
def emailAfterFirst : List Char → Bool
  | [] => false
  | '@' :: tail => emailTail tail
  | _ :: rest => emailAfterFirst rest

/-- Prefix match of the email regex: one or more non-at characters, an at
sign, one or more non-at characters, a dot, one or more non-at characters;
re.match only anchors at the start, trailing input is allowed. -/
def emailHead : List Char → Bool
  | [] => false
  | '@' :: _ => false
  | _ :: rest => emailAfterFirst rest

/-- Source function validate_email (Data_Cleaning_Validation):
bool(re.match(basic email pattern, email)). -/
def validate_email (email : String) : Bool :=
  emailHead email.toList

/-- Source function safe_division (TESTING_LOGGING_CONFIGS): true division
inside try, returning None (and logging) on ZeroDivisionError. Numbers are
modelled as rationals; the claim under proof only concerns the zero branch. -/
def safe_division (a b : Rat) : Option Rat :=
  if b = 0 then none else some (a / b)

/-- Source function calculate_average (Transformations_&_Aggregations):
returns 0 for an empty list, otherwise sum divided by length. -/
def calculate_average (values : List Rat) : Rat :=
  if values = [] then 0 else values.sum / (values.length : Rat)

/-- Every record of the table has the key present (with any value, possibly
None). Under this condition the subscript r[k] of the join code cannot raise. -/
def allHaveKey (t : Table) (k : String) : Bool :=
  t.all (fun r => (recLookup r k).isSome)

/-- Specification-side description of the join lookup: the last record of the
right table whose join-key value equals v (the spec words this as a lookup
built with last-write-wins on duplicate keys). -/
def lastMatch (right : Table) (k : String) (v : Value) : Option Record :=
  match right with
  | [] => none
  | r :: rs =>
      match lastMatch rs k v with
      | some x => some x
      | none => if pyGet r k = v then some r else none

example : remove_duplicates
    [[("id", vInt 1), ("amt", vInt 10)],
     [("id", vInt 1), ("amt", vInt 20)],
     [("id", vInt 2), ("amt", vInt 5)]] "id" =
    [[("id", vInt 1), ("amt", vInt 10)],
     [("id", vInt 2), ("amt", vInt 5)]] := by decide

-- Evaluation checks of the embedding on concrete inputs, matching the
-- behaviour of the Python functions on the same inputs.
example : pyStrptimeIso "2023-01-15" = Except.ok (2023, 1, 15) := by decide
example : pyStrptimeIso "2023-1-5" = Except.ok (2023, 1, 5) := by decide
example : (pyStrptimeIso "2023-13-01").isOk = false := by decide
example : (pyStrptimeIso "2023-00-10").isOk = false := by decide
example : (pyStrptimeIso "2023-02-29").isOk = false := by decide
example : pyStrptimeIso "2024-02-29" = Except.ok (2024, 2, 29) := by decide
example : (pyStrptimeIso "0000-01-01").isOk = false := by decide
example : pyStrptimeIso "2023-12-3" = Except.ok (2023, 12, 3) := by decide
example : (pyStrptimeIso "2023-10-315").isOk = false := by decide
example : validate_date_format "hello" = Except.ok false := by decide
example : validate_email "a@b.c" = true := by decide
example : validate_email "abc" = false := by decide
example : validate_email "a@b." = false := by decide
example : validate_email "@b.c" = false := by decide
example : validate_email "a@.c" = false := by decide
example : validate_email "a@b.c@@@" = true := by decide
example : order_by [[("a", Value.vInt 2)], [("a", Value.vInt 1)]] "a" true =
  Except.ok [[("a", Value.vInt 1)], [("a", Value.vInt 2)]] := by decide
example : order_by [[("a", Value.vInt 2)], [("a", Value.vInt 1)]] "a" false =
  Except.ok [[("a", Value.vInt 2)], [("a", Value.vInt 1)]] := by decide
example : order_by [[("a", Value.vInt 1)], []] "a" true = Except.error PyErr.typeError := by decide
example : order_by [[]] "a" true = Except.ok [[]] := by decide
example : inner_join [[("id", Value.vInt 1), ("x", Value.vInt 1)], [("id", Value.vInt 3)]]
    [[("id", Value.vInt 1), ("y", Value.vInt 2)]] "id" =
  Except.ok [[("id", Value.vInt 1), ("x", Value.vInt 1), ("y", Value.vInt 2)]] := by decide
example : left_join [[("id", Value.vInt 1), ("x", Value.vInt 1)], [("id", Value.vInt 3)]]
    [[("id", Value.vInt 1), ("y", Value.vInt 2)]] "id" =
  Except.ok [[("id", Value.vInt 1), ("x", Value.vInt 1), ("y", Value.vInt 2)], [("id", Value.vInt 3)]] := by decide
example : inner_join_ta [[]] [[("k", Value.vInt 1)]] "k" = Except.error PyErr.keyError := by decide

/-! ### Properties of the value ordering -/

theorem vle_refl (a : Value) : vle a a = true := by
  cases a <;> simp [vle]

theorem vle_total (a b : Value) : vle a b = true ∨ vle b a = true := by
  cases a <;> cases b <;> simp [vle] <;> first
    | omega
    | exact le_total _ _

theorem vle_trans (a b c : Value) (h1 : vle a b = true) (h2 : vle b c = true) :
    vle a c = true := by
  cases a <;> cases b <;> cases c <;> simp [vle] at * <;> first
    | omega
    | exact le_trans h1 h2

instance (field : String) (asc : Bool) : IsTotal Record (recKeyLe field asc) :=
  ⟨fun a b => by
    cases asc <;> simp only [recKeyLe, recKeyLeB, if_true, if_false,
      Bool.false_eq_true, ite_false, ite_true] <;>
      exact vle_total _ _⟩

instance (field : String) (asc : Bool) : IsTrans Record (recKeyLe field asc) :=
  ⟨fun a b c h1 h2 => by
    cases asc <;> simp only [recKeyLe, recKeyLeB, Bool.false_eq_true,
      ite_false, ite_true] at * <;> first
      | exact vle_trans _ _ _ h1 h2
      | exact vle_trans _ _ _ h2 h1⟩

/-! ### C9 and C8: error handling of safe_division, calculate_average, and
validate_date_format -/

/-- C9: safe_division returns the None sentinel (without raising) whenever the
divisor is zero, and calculate_average of the empty list is 0 rather than a
division by zero. -/
theorem safe_division_zero_average_empty :
    (∀ a : Rat, safe_division a 0 = none) ∧ calculate_average [] = 0 :=
  ⟨fun a => by simp [safe_division], by rfl⟩

/-- C8: validate_date_format always returns a boolean (it never lets an
exception escape), and it returns false exactly on the inputs where the
underlying strptime call fails. -/
theorem validate_date_format_total (s : String) :
    (∃ b, validate_date_format s = Except.ok b) ∧
    ((pyStrptimeIso s).isOk = false → validate_date_format s = Except.ok false) := by
  cases h : parseIsoDate s <;>
    simp [validate_date_format, pyStrptimeIso, h, Except.isOk, Except.toBool]

/-- Witness for C8 at a concrete malformed date string. -/
theorem validate_date_format_total_witness :
    validate_date_format "2023-13-45" = Except.ok false :=
  (validate_date_format_total "2023-13-45").2 (by decide)

/-! ### C4: remove_null_records -/

/-- C4: every record kept by remove_null_records has the field present with a
non-null value, and the result is an order-preserving subsequence of the
input. -/
theorem remove_null_records_nonnull_sublist (t : Table) (f : String) :
    (∀ r ∈ remove_null_records t f, ∃ v, recLookup r f = some v ∧ v ≠ vNone) ∧
    (remove_null_records t f).Sublist t := by
  refine ⟨?_, List.filter_sublist t⟩
  intro r hr
  have h2 : pyGet r f ≠ vNone := by
    simpa using (List.mem_filter.mp hr).2
  cases hv : recLookup r f with
  | none => exact absurd (by simp [pyGet, hv]) h2
  | some v => exact ⟨v, rfl, by simpa [pyGet, hv] using h2⟩

/-- Witness for C4 at a concrete table. -/
theorem remove_null_records_nonnull_sublist_witness :
    (∃ v, recLookup [("x", vInt 1)] "x" = some v ∧ v ≠ vNone) ∧
    (remove_null_records [[("x", vInt 1)], [("x", vNone)], []] "x").Sublist
      [[("x", vInt 1)], [("x", vNone)], []] :=
  ⟨(remove_null_records_nonnull_sublist [[("x", vInt 1)], [("x", vNone)], []] "x").1
      [("x", vInt 1)] (by decide),
   (remove_null_records_nonnull_sublist [[("x", vInt 1)], [("x", vNone)], []] "x").2⟩

/-! ### C3 and C10: remove_duplicates -/

/-- Any record emitted by the dedup loop has a key value outside the seen set,
and is the first record of the remaining input carrying that key value. -/
theorem removeDupGo_mem (k : String) (t : Table) :
    ∀ (seen : List Value) (r : Record), r ∈ removeDupGo k seen t →
      pyGet r k ∉ seen ∧
      (t.filter (fun x => decide (pyGet x k = pyGet r k))).head? = some r := by
  induction t with
  | nil => intro seen r hr; simp [removeDupGo] at hr
  | cons r0 rs ih =>
    intro seen r hr
    by_cases h0 : pyGet r0 k ∈ seen
    · rw [removeDupGo, if_pos h0] at hr
      obtain ⟨hns, hh⟩ := ih seen r hr
      refine ⟨hns, ?_⟩
      have hne : pyGet r0 k ≠ pyGet r k := fun he => hns (he ▸ h0)
      simp only [List.filter_cons, decide_eq_true_eq, hne, if_false]
      exact hh
    · rw [removeDupGo, if_neg h0] at hr
      rcases List.mem_cons.mp hr with he | hm
      · subst he
        refine ⟨h0, ?_⟩
        simp [List.filter_cons]
      · obtain ⟨hns, hh⟩ := ih (pyGet r0 k :: seen) r hm
        have hne : pyGet r0 k ≠ pyGet r k := by
          intro he
          exact hns (he ▸ List.mem_cons_self _ _)
        refine ⟨fun hs => hns (List.mem_cons_of_mem _ hs), ?_⟩
        simp only [List.filter_cons, decide_eq_true_eq, hne, if_false]
        exact hh

/-- The key values of the deduplicated table are pairwise distinct. -/
theorem removeDupGo_keys_nodup (k : String) (t : Table) :
    ∀ (seen : List Value),
      ((removeDupGo k seen t).map (fun r => pyGet r k)).Nodup := by
  induction t with
  | nil => intro seen; simp [removeDupGo]
  | cons r0 rs ih =>
    intro seen
    by_cases h0 : pyGet r0 k ∈ seen
    · rw [removeDupGo, if_pos h0]; exact ih seen
    · rw [removeDupGo, if_neg h0]
      simp only [List.map_cons, List.nodup_cons]
      refine ⟨?_, ih (pyGet r0 k :: seen)⟩
      intro hmem
      obtain ⟨r, hr, he⟩ := List.mem_map.mp hmem
      exact (removeDupGo_mem k rs _ r hr).1 (he ▸ List.mem_cons_self _ _)

/-- C3: remove_duplicates keeps at most one record per distinct key value,
the record kept for a value is the first record of the input carrying it, and
the concrete example of the specification evaluates as stated. -/
theorem remove_duplicates_first_per_key (t : Table) (k : String) :
    ((remove_duplicates t k).map (fun r => pyGet r k)).Nodup ∧
    (∀ r ∈ remove_duplicates t k,
      (t.filter (fun x => decide (pyGet x k = pyGet r k))).head? = some r) ∧
    remove_duplicates
      [[("id", vInt 1), ("amt", vInt 10)],
       [("id", vInt 1), ("amt", vInt 20)],
       [("id", vInt 2), ("amt", vInt 5)]] "id" =
      [[("id", vInt 1), ("amt", vInt 10)], [("id", vInt 2), ("amt", vInt 5)]] := by
  refine ⟨removeDupGo_keys_nodup k t [], ?_, by decide⟩
  intro r hr
  exact (removeDupGo_mem k t [] r hr).2

/-- Witness for C3: the record kept for id 1 is the first of the two records
carrying id 1. -/
theorem remove_duplicates_first_per_key_witness :
    ([[("id", vInt 1), ("amt", vInt 10)],
      [("id", vInt 1), ("amt", vInt 20)],
      [("id", vInt 2), ("amt", vInt 5)]].filter
        (fun x => decide (pyGet x "id" = pyGet [("id", vInt 1), ("amt", vInt 10)] "id"))).head? =
      some [("id", vInt 1), ("amt", vInt 10)] :=
  (remove_duplicates_first_per_key
      [[("id", vInt 1), ("amt", vInt 10)],
       [("id", vInt 1), ("amt", vInt 20)],
       [("id", vInt 2), ("amt", vInt 5)]] "id").2.1
    [("id", vInt 1), ("amt", vInt 10)] (by decide)

/-- A filter whose kept elements all map to one value has at most one element
when the mapped list has no duplicates. -/
theorem length_filter_le_one_of_nodup_map {α β : Type} (l : List α) (f : α → β)
    (p : α → Bool) (c : β) (hn : (l.map f).Nodup)
    (hc : ∀ x ∈ l.filter p, f x = c) : (l.filter p).length ≤ 1 := by
  rcases hf : l.filter p with _ | ⟨x, _ | ⟨y, t2⟩⟩
  · simp
  · simp
  · exfalso
    have hs : List.Sublist ((l.filter p).map f) (l.map f) :=
      (List.filter_sublist l).map f
    have hnd : ((l.filter p).map f).Nodup := hn.sublist hs
    rw [hf] at hnd hc
    have hx : f x = c := hc x (by simp)
    have hy : f y = c := hc y (by simp)
    simp only [List.map_cons, List.nodup_cons, List.mem_cons] at hnd
    exact hnd.1 (Or.inl (hx.trans hy.symm))

/-- Decomposition of a list at the first element kept by a filter. -/
theorem filter_head_decomp {α : Type} (p : α → Bool) :
    ∀ (l : List α) (a : α), (l.filter p).head? = some a →
      ∃ s t2, l = s ++ a :: t2 ∧ ∀ x ∈ s, p x = false := by
  intro l
  induction l with
  | nil => intro a h; simp at h
  | cons b l ih =>
    intro a h
    by_cases hb : p b
    · rw [List.filter_cons, if_pos hb] at h
      simp only [List.head?_cons, Option.some.injEq] at h
      exact ⟨[], l, by simp [h], by simp⟩
    · rw [List.filter_cons, if_neg hb] at h
      obtain ⟨s, t2, he, hs⟩ := ih a h
      refine ⟨b :: s, t2, by simp [he], ?_⟩
      intro x hx
      rcases List.mem_cons.mp hx with he2 | hm
      · subst he2; simpa using hb
      · exact hs x hm

/-- C10: records lacking the dedup key all collide on the None marker: at most
one key-less record survives remove_duplicates, and a surviving key-less
record is the first key-less record of the input. -/
theorem remove_duplicates_missing_key (t : Table) (k : String) :
    ((remove_duplicates t k).filter (fun r => (recLookup r k).isNone)).length ≤ 1 ∧
    (∀ r ∈ remove_duplicates t k, recLookup r k = none →
      (t.filter (fun x => (recLookup x k).isNone)).head? = some r) := by
  constructor
  · apply length_filter_le_one_of_nodup_map _ (fun r => pyGet r k) _ vNone
      (removeDupGo_keys_nodup k t [])
    intro x hx
    have h2 := (List.mem_filter.mp hx).2
    cases hv : recLookup x k with
    | none => simp [pyGet, hv]
    | some v => rw [hv] at h2; simp at h2
  · intro r hr hnone
    have h2 := (removeDupGo_mem k t [] r hr).2
    have hkey : pyGet r k = vNone := by simp [pyGet, hnone]
    rw [hkey] at h2
    obtain ⟨s, t2, he, hs⟩ := filter_head_decomp _ t r h2
    subst he
    rw [List.filter_append]
    have hsf : s.filter (fun x => (recLookup x k).isNone) = [] := by
      rw [List.filter_eq_nil_iff]
      intro x hx
      have hpx := hs x hx
      simp only [decide_eq_false_iff_not] at hpx
      intro hiso
      cases hv : recLookup x k with
      | none => exact hpx (by simp [pyGet, hv])
      | some v => rw [hv] at hiso; simp at hiso
    rw [hsf, List.nil_append, List.filter_cons, if_pos (by simp [hnone])]
    simp

/-- Witness for C10: in a table whose second and third records lack the key,
only the second survives and it heads the key-less records. -/
theorem remove_duplicates_missing_key_witness :
    ([[("a", vInt 1)], [], [("b", vInt 2)]].filter
      (fun x => (recLookup x "a").isNone)).head? = some [] :=
  (remove_duplicates_missing_key [[("a", vInt 1)], [], [("b", vInt 2)]] "a").2
    [] (by decide) (by rfl)

/-! ### C1 and C7: order_by -/

/-- Counterexample to C1 as stated: with a record missing the sort field,
order_by (and df_order_by) raises TypeError in Python 3 — the None sort key
does not compare — instead of ordering the record null-low. -/
theorem order_by_missing_field_raises :
    order_by [[("a", vInt 1)], []] "a" true = Except.error PyErr.typeError ∧
    df_order_by [[("a", vInt 1)], []] "a" true = Except.error PyErr.typeError :=
  ⟨by rfl, by rfl⟩

/-- C1 (amended): when all records carry values of one comparable kind at the
field (or the table has fewer than two records), order_by returns a
permutation of the records that is sorted ascending or descending as
requested, and df_order_by behaves identically. -/
theorem order_by_sorts_when_comparable (records : Table) (field : String)
    (ascending : Bool) (h : sortKeysComparable records field = true) :
    order_by records field ascending =
      Except.ok (records.insertionSort (recKeyLe field ascending)) ∧
    (records.insertionSort (recKeyLe field ascending)).Perm records ∧
    (ascending = true → (records.insertionSort (recKeyLe field ascending)).Pairwise
      (fun a b => vle (pyGet a field) (pyGet b field) = true)) ∧
    (ascending = false → (records.insertionSort (recKeyLe field ascending)).Pairwise
      (fun a b => vle (pyGet b field) (pyGet a field) = true)) ∧
    df_order_by records field ascending = order_by records field ascending := by
  refine ⟨by simp [order_by, h], List.perm_insertionSort _ _, ?_, ?_, rfl⟩
  · intro ha
    subst ha
    have hs := List.sorted_insertionSort (recKeyLe field true) records
    exact List.Pairwise.imp (fun hab => by simpa [recKeyLe, recKeyLeB] using hab) hs
  · intro ha
    subst ha
    have hs := List.sorted_insertionSort (recKeyLe field false) records
    exact List.Pairwise.imp (fun hab => by simpa [recKeyLe, recKeyLeB] using hab) hs

/-- Witness for C1 (amended) at a concrete two-record table. -/
theorem order_by_sorts_when_comparable_witness :
    order_by [[("a", vInt 2)], [("a", vInt 1)]] "a" true =
      Except.ok ([[("a", vInt 2)], [("a", vInt 1)]].insertionSort (recKeyLe "a" true)) ∧
    ([[("a", vInt 2)], [("a", vInt 1)]].insertionSort (recKeyLe "a" true)).Perm
      [[("a", vInt 2)], [("a", vInt 1)]] ∧
    (true = true → ([[("a", vInt 2)], [("a", vInt 1)]].insertionSort (recKeyLe "a" true)).Pairwise
      (fun a b => vle (pyGet a "a") (pyGet b "a") = true)) ∧
    (true = false → ([[("a", vInt 2)], [("a", vInt 1)]].insertionSort (recKeyLe "a" true)).Pairwise
      (fun a b => vle (pyGet b "a") (pyGet a "a") = true)) ∧
    df_order_by [[("a", vInt 2)], [("a", vInt 1)]] "a" true =
      order_by [[("a", vInt 2)], [("a", vInt 1)]] "a" true :=
  order_by_sorts_when_comparable [[("a", vInt 2)], [("a", vInt 1)]] "a" true (by decide)

/-- C7: order_by is stable — for any sort-key value, the subsequence of output
records carrying that value is exactly the subsequence of input records
carrying it (so records with equal sort keys keep their relative order), for
ascending as well as descending sorts. -/
theorem order_by_stable (t0 : Table) (field : String) (ascending : Bool)
    (t : Table) (_hvals : ∀ r ∈ t0, (recLookup r field).isSome = true)
    (h : order_by t0 field ascending = Except.ok t) :
    ∀ v, t.filter (fun r => decide (pyGet r field = v)) =
      t0.filter (fun r => decide (pyGet r field = v)) := by
  intro v
  unfold order_by at h
  cases hc : sortKeysComparable t0 field with
  | false => rw [hc] at h; simp at h
  | true =>
    rw [hc] at h
    simp only [if_true, Except.ok.injEq] at h
    subst h
    have hApw : (t0.filter (fun r => decide (pyGet r field = v))).Pairwise
        (recKeyLe field ascending) := by
      apply List.pairwise_of_forall_mem_list
      intro a ha b hb
      have hva : pyGet a field = v := by simpa using (List.mem_filter.mp ha).2
      have hvb : pyGet b field = v := by simpa using (List.mem_filter.mp hb).2
      cases ascending <;> simp [recKeyLe, recKeyLeB, hva, hvb, vle_refl]
    have hstab := List.sublist_insertionSort hApw (List.filter_sublist t0)
    have hAB :
        List.Sublist (t0.filter (fun r => decide (pyGet r field = v)))
          ((t0.insertionSort (recKeyLe field ascending)).filter
            (fun r => decide (pyGet r field = v))) := by
      have hss := hstab.filter (fun r => decide (pyGet r field = v))
      have hA : (t0.filter (fun r => decide (pyGet r field = v))).filter
          (fun r => decide (pyGet r field = v)) =
          t0.filter (fun r => decide (pyGet r field = v)) :=
        List.filter_eq_self.mpr (fun a ha => (List.mem_filter.mp ha).2)
      rwa [hA] at hss
    have hperm :
        ((t0.insertionSort (recKeyLe field ascending)).filter
          (fun r => decide (pyGet r field = v))).Perm
          (t0.filter (fun r => decide (pyGet r field = v))) :=
      (List.perm_insertionSort _ _).filter _
    exact (hAB.eq_of_length hperm.length_eq.symm).symm

/-- Witness for C7 at a concrete table with two equal sort keys. -/
theorem order_by_stable_witness :
    ([[("a", vInt 1), ("b", vInt 1)], [("a", vInt 1), ("b", vInt 2)]].filter
      (fun r => decide (pyGet r "a" = vInt 1))) =
    ([[("a", vInt 1), ("b", vInt 1)], [("a", vInt 1), ("b", vInt 2)]].filter
      (fun r => decide (pyGet r "a" = vInt 1))) :=
  order_by_stable [[("a", vInt 1), ("b", vInt 1)], [("a", vInt 1), ("b", vInt 2)]]
    "a" true [[("a", vInt 1), ("b", vInt 1)], [("a", vInt 1), ("b", vInt 2)]]
    (by decide) (by decide) (vInt 1)

/-! ### Lemmas on records, dict building, and joins -/

theorem recGetItem_of_hasKey (r : Record) (k : String)
    (h : (recLookup r k).isSome = true) :
    recGetItem r k = Except.ok (pyGet r k) := by
  cases hv : recLookup r k with
  | none => rw [hv] at h; simp at h
  | some v => simp [recGetItem, pyGet, hv]

theorem allHaveKey_cons {r : Record} {rs : Table} {k : String}
    (h : allHaveKey (r :: rs) k = true) :
    (recLookup r k).isSome = true ∧ allHaveKey rs k = true := by
  simpa [allHaveKey] using h

theorem buildLookupGo_spec (k : String) :
    ∀ (rs : Table) (acc : VDict), allHaveKey rs k = true →
      ∃ g, buildLookupGo acc k rs = Except.ok g ∧
        ∀ v, g v = match lastMatch rs k v with
          | some x => some x
          | none => acc v := by
  intro rs
  induction rs with
  | nil =>
    intro acc _
    exact ⟨acc, rfl, fun v => by simp [lastMatch]⟩
  | cons r rs ih =>
    intro acc hall
    have hr : (recLookup r k).isSome = true := (allHaveKey_cons hall).1
    have hrs : allHaveKey rs k = true := (allHaveKey_cons hall).2
    obtain ⟨g, hg, hgv⟩ := ih (dictInsert acc (pyGet r k) r) hrs
    refine ⟨g, ?_, ?_⟩
    · rw [buildLookupGo, recGetItem_of_hasKey r k hr]
      exact hg
    · intro v
      rw [hgv v, lastMatch]
      cases lastMatch rs k v with
      | some x => simp
      | none =>
        by_cases hv : pyGet r k = v
        · subst hv; simp [dictInsert]
        · have hv2 : ¬ (v = pyGet r k) := fun h2 => hv h2.symm
          simp [dictInsert, hv, hv2]

theorem buildLookup_spec (right : Table) (k : String)
    (h : allHaveKey right k = true) :
    ∃ g, buildLookup right k = Except.ok g ∧ ∀ v, g v = lastMatch right k v := by
  obtain ⟨g, hg, hgv⟩ := buildLookupGo_spec k right (fun _ => none) h
  refine ⟨g, hg, fun v => ?_⟩
  rw [hgv v]
  cases lastMatch right k v <;> simp

theorem lastMatch_isSome (k : String) (v : Value) :
    ∀ right : Table,
      (lastMatch right k v).isSome = right.any (fun r => decide (pyGet r k = v))
  | [] => by simp [lastMatch]
  | r :: rs => by
    rw [lastMatch, List.any_cons]
    cases h : lastMatch rs k v with
    | some x =>
      have := lastMatch_isSome k v rs
      rw [h] at this
      simp [← this]
    | none =>
      have := lastMatch_isSome k v rs
      rw [h] at this
      by_cases hv : pyGet r k = v <;> simp [hv, ← this]

theorem length_filterMap_eq_length_filter {α β : Type} (f : α → Option β) :
    ∀ l : List α,
      (l.filterMap f).length = (l.filter (fun x => (f x).isSome)).length
  | [] => rfl
  | a :: l => by
    cases h : f a <;>
      simp [List.filterMap_cons, List.filter_cons, h,
        length_filterMap_eq_length_filter f l]

theorem inner_join_eq (L R : Table) (k : String) (hR : allHaveKey R k = true) :
    inner_join L R k =
      Except.ok (L.filterMap (fun l => (lastMatch R k (pyGet l k)).map
        (fun r => pyUpdate l r))) := by
  obtain ⟨g, hg, hgv⟩ := buildLookup_spec R k hR
  unfold inner_join
  rw [hg]
  exact congrArg Except.ok (List.filterMap_congr (fun l _ => by rw [hgv]))

theorem left_join_eq (L R : Table) (k : String) (hR : allHaveKey R k = true) :
    left_join L R k =
      Except.ok (L.map (fun l => pyUpdate l ((lastMatch R k (pyGet l k)).getD []))) := by
  obtain ⟨g, hg, hgv⟩ := buildLookup_spec R k hR
  unfold left_join
  rw [hg]
  exact congrArg Except.ok (List.map_congr_left (fun l _ => by rw [hgv]))

theorem innerJoinTaGo_eq (d : VDict) (k : String) :
    ∀ L : Table, allHaveKey L k = true →
      innerJoinTaGo d k L =
        Except.ok (L.filterMap (fun l => (d (pyGet l k)).map (fun r => pyUpdate l r)))
  | [] => fun _ => rfl
  | l :: ls => fun hall => by
    have hl : (recLookup l k).isSome = true := (allHaveKey_cons hall).1
    have hls : allHaveKey ls k = true := (allHaveKey_cons hall).2
    rw [innerJoinTaGo, recGetItem_of_hasKey l k hl, innerJoinTaGo_eq d k ls hls]
    cases h : d (pyGet l k) <;> simp [h, List.filterMap_cons]


theorem pyUpdate_nil (l : Record) : pyUpdate l [] = l := rfl

theorem recLookup_assocReplace_self (k : String) (v : Value) :
    ∀ r : Record, (recLookup r k).isSome = true →
      recLookup (assocReplace k v r) k = some v
  | [], h => by rw [recLookup] at h; simp at h
  | (k0, v0) :: rest, h => by
    by_cases h0 : k0 = k
    · rw [assocReplace, if_pos h0, recLookup, if_pos rfl]
    · rw [recLookup, if_neg h0] at h
      rw [assocReplace, if_neg h0, recLookup, if_neg h0,
        recLookup_assocReplace_self k v rest h]

theorem recLookup_assocReplace_other (k f : String) (v : Value) (hk : k ≠ f) :
    ∀ r : Record, recLookup (assocReplace k v r) f = recLookup r f
  | [] => rfl
  | (k0, v0) :: rest => by
    by_cases h0 : k0 = k
    · subst h0
      rw [assocReplace, if_pos rfl, recLookup, if_neg hk, recLookup, if_neg hk]
    · rw [assocReplace, if_neg h0, recLookup, recLookup,
        recLookup_assocReplace_other k f v hk rest]

theorem recLookup_assocPut_self (k : String) (v : Value) (r : Record) :
    recLookup (assocPut r k v) k = some v := by
  unfold assocPut
  by_cases hp : (recLookup r k).isSome = true
  · rw [if_pos hp]
    exact recLookup_assocReplace_self k v r hp
  · rw [if_neg hp]
    induction r with
    | nil => simp [recLookup]
    | cons p rest ih =>
      obtain ⟨k0, v0⟩ := p
      by_cases h0 : k0 = k
      · rw [recLookup, if_pos h0] at hp; simp at hp
      · rw [recLookup, if_neg h0] at hp
        rw [List.cons_append, recLookup, if_neg h0]
        exact ih hp

theorem recLookup_assocPut_other (k f : String) (v : Value) (hk : k ≠ f)
    (r : Record) : recLookup (assocPut r k v) f = recLookup r f := by
  unfold assocPut
  by_cases hp : (recLookup r k).isSome = true
  · rw [if_pos hp]
    exact recLookup_assocReplace_other k f v hk r
  · rw [if_neg hp]
    induction r with
    | nil => simp [recLookup, hk]
    | cons p rest ih =>
      obtain ⟨k0, v0⟩ := p
      by_cases h0 : k0 = f
      · rw [List.cons_append, recLookup, if_pos h0, recLookup, if_pos h0]
      · rw [List.cons_append, recLookup, if_neg h0, recLookup, if_neg h0]
        apply ih
        intro hsome
        apply hp
        rw [recLookup]
        by_cases h1 : k0 = k
        · rw [if_pos h1]; rfl
        · rw [if_neg h1]; exact hsome

theorem recLookup_none_of_not_mem_keys (f : String) :
    ∀ r2 : Record, f ∉ r2.map Prod.fst → recLookup r2 f = none
  | [] => fun _ => rfl
  | (k0, v0) :: rest => fun h => by
    simp only [List.map_cons, List.mem_cons] at h
    push_neg at h
    rw [recLookup, if_neg (fun he => h.1 he.symm)]
    exact recLookup_none_of_not_mem_keys f rest h.2

theorem recLookup_isSome_mem_keys (f : String) :
    ∀ r2 : Record, (recLookup r2 f).isSome = true → f ∈ r2.map Prod.fst
  | [], h => by rw [recLookup] at h; simp at h
  | (k0, v0) :: rest, h => by
    by_cases h0 : k0 = f
    · simp [h0]
    · rw [recLookup, if_neg h0] at h
      simp only [List.map_cons, List.mem_cons]
      exact Or.inr (recLookup_isSome_mem_keys f rest h)

theorem recLookup_pyUpdate_absent (f : String) :
    ∀ (r2 : Record) (l : Record), recLookup r2 f = none →
      recLookup (pyUpdate l r2) f = recLookup l f
  | [], l => fun _ => rfl
  | (k0, v0) :: rest, l => fun h => by
    have h0 : k0 ≠ f := by
      intro he
      rw [recLookup, if_pos he] at h
      exact Option.noConfusion h
    rw [recLookup, if_neg h0] at h
    show recLookup (pyUpdate (assocPut l k0 v0) rest) f = recLookup l f
    rw [recLookup_pyUpdate_absent f rest (assocPut l k0 v0) h,
      recLookup_assocPut_other k0 f v0 h0]

theorem recLookup_pyUpdate_present (f : String) :
    ∀ (r2 : Record) (l : Record), (r2.map Prod.fst).Nodup →
      (recLookup r2 f).isSome = true →
      recLookup (pyUpdate l r2) f = recLookup r2 f
  | [], l => fun _ h => by rw [recLookup] at h; simp at h
  | (k0, v0) :: rest, l => fun hnd h => by
    simp only [List.map_cons, List.nodup_cons] at hnd
    by_cases h0 : k0 = f
    · subst h0
      have habs : recLookup rest k0 = none := by
        cases hv : recLookup rest k0 with
        | none => rfl
        | some v =>
          exact absurd (recLookup_isSome_mem_keys k0 rest (by simp [hv])) hnd.1
      show recLookup (pyUpdate (assocPut l k0 v0) rest) k0 =
        recLookup ((k0, v0) :: rest) k0
      rw [recLookup_pyUpdate_absent k0 rest (assocPut l k0 v0) habs,
        recLookup_assocPut_self k0 v0 l, recLookup, if_pos rfl]
    · rw [recLookup, if_neg h0] at h
      show recLookup (pyUpdate (assocPut l k0 v0) rest) f =
        recLookup ((k0, v0) :: rest) f
      rw [recLookup_pyUpdate_present f rest (assocPut l k0 v0) hnd.2 h,
        recLookup, if_neg h0]

/-! ### C2, C5, C6: joins -/

/-- Counterexample to C2 as stated: the Transformations version of inner_join
subscripts the left record with the join key, so with a left record lacking
the key it raises KeyError instead of returning a table, even though every
record of the right table has the key (the SQL-like version returns a table
on the same input). -/
theorem inner_join_ta_keyerror :
    allHaveKey [[("k", vInt 1)]] "k" = true ∧
    inner_join_ta [[]] [[("k", vInt 1)]] "k" = Except.error PyErr.keyError ∧
    inner_join [[]] [[("k", vInt 1)]] "k" = Except.ok [] :=
  ⟨by decide, by rfl, by rfl⟩

/-- C2 (amended): when every record of R has the join key, the SQL-like
inner_join returns the table of merged records of the matching left records
(so an unmatched left record contributes nothing), whose length is the number
of left records whose key value (via .get) appears among the key values of R;
the Transformations version returns the same table provided every record of L
also has the key (otherwise it raises KeyError). -/
theorem inner_join_matched_length (L R : Table) (k : String)
    (hR : allHaveKey R k = true) :
    inner_join L R k =
      Except.ok (L.filterMap (fun l => (lastMatch R k (pyGet l k)).map
        (fun r => pyUpdate l r))) ∧
    (L.filterMap (fun l => (lastMatch R k (pyGet l k)).map
      (fun r => pyUpdate l r))).length =
      (L.filter (fun l => R.any (fun r => decide (pyGet r k = pyGet l k)))).length ∧
    (allHaveKey L k = true →
      inner_join_ta L R k =
        Except.ok (L.filterMap (fun l => (lastMatch R k (pyGet l k)).map
          (fun r => pyUpdate l r)))) := by
  refine ⟨inner_join_eq L R k hR, ?_, ?_⟩
  · rw [length_filterMap_eq_length_filter]
    apply congrArg List.length
    apply List.filter_congr
    intro x _
    simp [lastMatch_isSome]
  · intro hL
    obtain ⟨g, hg, hgv⟩ := buildLookup_spec R k hR
    unfold inner_join_ta
    rw [hg]
    show innerJoinTaGo g k L = _
    rw [innerJoinTaGo_eq g k L hL]
    exact congrArg Except.ok (List.filterMap_congr (fun l _ => by rw [hgv]))

/-- Witness for C2 (amended): one matching and one unmatched left record. -/
theorem inner_join_matched_length_witness :
    inner_join [[("k", vInt 1)], []] [[("k", vInt 1), ("y", vInt 9)]] "k" =
      Except.ok ([[("k", vInt 1)], []].filterMap
        (fun l => (lastMatch [[("k", vInt 1), ("y", vInt 9)]] "k" (pyGet l "k")).map
          (fun r => pyUpdate l r))) ∧
    ([[("k", vInt 1)], []].filterMap
      (fun l => (lastMatch [[("k", vInt 1), ("y", vInt 9)]] "k" (pyGet l "k")).map
        (fun r => pyUpdate l r))).length =
      ([[("k", vInt 1)], []].filter
        (fun l => [[("k", vInt 1), ("y", vInt 9)]].any
          (fun r => decide (pyGet r "k" = pyGet l "k")))).length ∧
    (allHaveKey [[("k", vInt 1)], []] "k" = true →
      inner_join_ta [[("k", vInt 1)], []] [[("k", vInt 1), ("y", vInt 9)]] "k" =
        Except.ok ([[("k", vInt 1)], []].filterMap
          (fun l => (lastMatch [[("k", vInt 1), ("y", vInt 9)]] "k" (pyGet l "k")).map
            (fun r => pyUpdate l r)))) :=
  inner_join_matched_length [[("k", vInt 1)], []]
    [[("k", vInt 1), ("y", vInt 9)]] "k" (by decide)

/-- C5: when every record of R has the join key, left_join emits exactly one
output record per left record, in input order, and a left record with no
matching key value in R passes through unchanged (no null-filled right-only
fields are added). -/
theorem left_join_emits_all (L R : Table) (k : String)
    (hR : allHaveKey R k = true) :
    left_join L R k =
      Except.ok (L.map (fun l => pyUpdate l ((lastMatch R k (pyGet l k)).getD []))) ∧
    (L.map (fun l => pyUpdate l ((lastMatch R k (pyGet l k)).getD []))).length =
      L.length ∧
    List.Forall₂ (fun l o => (∀ r ∈ R, pyGet r k ≠ pyGet l k) → o = l) L
      (L.map (fun l => pyUpdate l ((lastMatch R k (pyGet l k)).getD []))) := by
  refine ⟨left_join_eq L R k hR, List.length_map .., ?_⟩
  induction L with
  | nil => exact List.Forall₂.nil
  | cons l ls ih =>
    refine List.Forall₂.cons ?_ ih
    intro hnm
    have hany : R.any (fun r => decide (pyGet r k = pyGet l k)) = false := by
      simp only [List.any_eq_false, decide_eq_true_eq]
      intro r hr
      exact fun he => hnm r hr he
    cases hlm : lastMatch R k (pyGet l k) with
    | none =>
      show pyUpdate l ((lastMatch R k (pyGet l k)).getD []) = l
      rw [hlm]
      rfl
    | some x =>
      exfalso
      have hiso := lastMatch_isSome k (pyGet l k) R
      rw [hlm, hany] at hiso
      simp at hiso

/-- Witness for C5 at a left table with a single unmatched record. -/
theorem left_join_emits_all_witness :
    left_join [[("id", vInt 3)]] [[("id", vInt 1), ("y", vInt 2)]] "id" =
      Except.ok ([[("id", vInt 3)]].map (fun l => pyUpdate l
        ((lastMatch [[("id", vInt 1), ("y", vInt 2)]] "id" (pyGet l "id")).getD []))) ∧
    ([[("id", vInt 3)]].map (fun l => pyUpdate l
      ((lastMatch [[("id", vInt 1), ("y", vInt 2)]] "id" (pyGet l "id")).getD []))).length =
      [[("id", vInt 3)]].length ∧
    List.Forall₂ (fun l o =>
        (∀ r ∈ [[("id", vInt 1), ("y", vInt 2)]], pyGet r "id" ≠ pyGet l "id") → o = l)
      [[("id", vInt 3)]]
      ([[("id", vInt 3)]].map (fun l => pyUpdate l
        ((lastMatch [[("id", vInt 1), ("y", vInt 2)]] "id" (pyGet l "id")).getD []))) :=
  left_join_emits_all [[("id", vInt 3)]] [[("id", vInt 1), ("y", vInt 2)]] "id"
    (by decide)

/-- C6: when every record of R has the join key, the right lookup of the joins
maps each key value to the last record of R carrying it (last-write-wins);
inner_join and left_join merge with that record; and in a merged record a
field present in both sides holds the right-hand value. -/
theorem join_right_overwrites (L R : Table) (k : String)
    (hR : allHaveKey R k = true) :
    (∀ g, buildLookup R k = Except.ok g → ∀ v, g v = lastMatch R k v) ∧
    inner_join L R k =
      Except.ok (L.filterMap (fun l => (lastMatch R k (pyGet l k)).map
        (fun r => pyUpdate l r))) ∧
    left_join L R k =
      Except.ok (L.map (fun l => pyUpdate l ((lastMatch R k (pyGet l k)).getD []))) ∧
    (∀ (l r2 : Record) (f : String), (r2.map Prod.fst).Nodup →
      (recLookup l f).isSome = true → (recLookup r2 f).isSome = true →
      recLookup (pyUpdate l r2) f = recLookup r2 f) := by
  refine ⟨?_, inner_join_eq L R k hR, left_join_eq L R k hR, ?_⟩
  · intro g hg v
    obtain ⟨g2, hg2, hgv⟩ := buildLookup_spec R k hR
    rw [hg] at hg2
    injection hg2 with he
    rw [he]
    exact hgv v
  · intro l r2 f hnd _ hsome
    exact recLookup_pyUpdate_present f r2 l hnd hsome

/-- Witness for C6: duplicate right keys and a colliding field. -/
theorem join_right_overwrites_witness :
    (∀ g, buildLookup [[("k", vInt 1), ("x", vInt 7)], [("k", vInt 1), ("x", vInt 8)]] "k" =
        Except.ok g →
      ∀ v, g v = lastMatch [[("k", vInt 1), ("x", vInt 7)], [("k", vInt 1), ("x", vInt 8)]] "k" v) ∧
    inner_join [[("k", vInt 1), ("x", vInt 5)]]
        [[("k", vInt 1), ("x", vInt 7)], [("k", vInt 1), ("x", vInt 8)]] "k" =
      Except.ok ([[("k", vInt 1), ("x", vInt 5)]].filterMap
        (fun l => (lastMatch [[("k", vInt 1), ("x", vInt 7)], [("k", vInt 1), ("x", vInt 8)]]
            "k" (pyGet l "k")).map (fun r => pyUpdate l r))) ∧
    left_join [[("k", vInt 1), ("x", vInt 5)]]
        [[("k", vInt 1), ("x", vInt 7)], [("k", vInt 1), ("x", vInt 8)]] "k" =
      Except.ok ([[("k", vInt 1), ("x", vInt 5)]].map
        (fun l => pyUpdate l ((lastMatch [[("k", vInt 1), ("x", vInt 7)], [("k", vInt 1), ("x", vInt 8)]]
            "k" (pyGet l "k")).getD []))) ∧
    (∀ (l r2 : Record) (f : String), (r2.map Prod.fst).Nodup →
      (recLookup l f).isSome = true → (recLookup r2 f).isSome = true →
      recLookup (pyUpdate l r2) f = recLookup r2 f) :=
  join_right_overwrites [[("k", vInt 1), ("x", vInt 5)]]
    [[("k", vInt 1), ("x", vInt 7)], [("k", vInt 1), ("x", vInt 8)]] "k" (by decide)
